import Mathlib

/-!
# sparkcli: configuration store and message service

A shallow embedding of `util/config.go`, `api/messages.go` and the
`messages list` and `messages create text` actions of `sparkcli.go`.

Conventions of the embedding.

* Go strings are Lean strings.
* A Go `(result, error)` pair is an `Except Error result`; a call to
  `log.Fatal` is an `Except.error` carrying the fatal message.
* Output written through `log` or `fmt` and the requests handed to the HTTP
  client are recorded, in order, as a list of events.
* Third-party libraries (the TOML encoder and decoder, the HTTP transport,
  the JSON decoder of responses) are parameters of the functions that call
  them; the file system is an explicit state.  For the round trip through
  the config file the TOML library is modelled on the flat documents the
  encoder writes, the decimal texts of finite floats staying a parameter.
-/

namespace SparkCli

/-! ## Go standard library helpers used by the sources -/

/-- Cut a character list at the first occurrence of `sep`: the part before
it and the part after it, or `none` when `sep` does not occur. -/
def cutFirst (sep : Char) : List Char → Option (List Char × List Char)
  | [] => none
  | c :: cs =>
    if c = sep then some ([], cs)
    else
      match cutFirst sep cs with
      | none => none
      | some (a, b) => some (c :: a, b)

/-- Worker of `strings.SplitN` for a one-character separator: at most `n`
pieces, the last one being the unsplit remainder. -/
def splitNChars (sep : Char) : Nat → List Char → List (List Char)
  | 0, _ => []
  | 1, cs => [cs]
  | n + 2, cs =>
    match cutFirst sep cs with
    | none => [cs]
    | some (a, b) => a :: splitNChars sep (n + 1) b

/-- Go `strings.SplitN(s, sep, n)` for a one-character separator and
`n ≥ 0`. -/
def strings.SplitN (s : String) (sep : Char) (n : Nat) : List String :=
  (splitNChars sep n s.data).map String.mk

/-- Go `strings.Join(elems, sep)`. -/
def strings.Join (elems : List String) (sep : String) : String :=
  sep.intercalate elems

/-- UTF-8 encoding of a character, as a list of byte values. -/
def utf8Bytes (c : Char) : List Nat :=
  let v := c.toNat
  if v < 0x80 then [v]
  else if v < 0x800 then [0xC0 + v / 0x40, 0x80 + v % 0x40]
  else if v < 0x10000 then
    [0xE0 + v / 0x1000, 0x80 + (v / 0x40) % 0x40, 0x80 + v % 0x40]
  else
    [0xF0 + v / 0x40000, 0x80 + (v / 0x1000) % 0x40,
      0x80 + (v / 0x40) % 0x40, 0x80 + v % 0x40]

/-- Upper-case hexadecimal digit of a value below 16. -/
def upperHexDigit (n : Nat) : Char :=
  "0123456789ABCDEF".data.getD n '0'

/-- Go `net/url` `shouldEscape(c, encodeQueryComponent)`: only ASCII letters,
digits and `-`, `_`, `.`, `~` are left as they are. -/
def url.shouldEscape (c : Char) : Bool :=
  !(c.isAlphanum || c = '-' || c = '_' || c = '.' || c = '~')

/-- Escape of one character by Go `url.QueryEscape`: a space becomes `+`,
an unreserved character stays, any other character becomes `%XX` for each
byte of its UTF-8 encoding. -/
def url.escapeChar (c : Char) : List Char :=
  if c = ' ' then ['+']
  else if url.shouldEscape c then
    (utf8Bytes c).flatMap fun b => ['%', upperHexDigit (b / 16), upperHexDigit (b % 16)]
  else [c]

/-- Go `url.QueryEscape`. -/
def url.QueryEscape (s : String) : String :=
  String.mk (s.data.flatMap url.escapeChar)

/-- Go `url.Values`, a map from a key to its list of values, kept as an
association list in the order the map literal is written. -/
abbrev url.Values := List (String × List String)

/-- Go `a < b` on strings: lexicographic order of the bytes, which for
UTF-8 is the lexicographic order of the code points. -/
def stringLess : List Char → List Char → Bool
  | _, [] => false
  | [], _ :: _ => true
  | a :: as, b :: bs =>
    if a.toNat < b.toNat then true
    else if b.toNat < a.toNat then false
    else stringLess as bs

/-- Insertion of a map entry into a list of entries sorted by key. -/
def url.insertByKey (e : String × List String) : url.Values → url.Values
  | [] => [e]
  | x :: xs =>
    if stringLess e.1.data x.1.data then e :: x :: xs else x :: url.insertByKey e xs

/-- Entries of a map in ascending key order (`sort.Strings` on the keys). -/
def url.sortByKey : url.Values → url.Values
  | [] => []
  | e :: es => url.insertByKey e (url.sortByKey es)

/-- Go `url.Values.Encode`: the entries in ascending key order, each value
written as `key=value` with both sides query-escaped, joined by `&`. -/
def url.Values.Encode (v : url.Values) : String :=
  "&".intercalate
    ((url.sortByKey v).flatMap fun e =>
      e.2.map fun x => url.QueryEscape e.1 ++ "=" ++ url.QueryEscape x)

/-! ## util/config.go -/

/-- A Go `float64`, kept as its IEEE-754 bit pattern; the zero value is the
pattern `0`. -/
structure Float64 where
  bits : Nat
  deriving DecidableEq, Repr

/-- The record `Configuration` of `util/config.go`. -/
structure Configuration where
  BaseUrl : String
  ClientId : String
  ClientSecret : String
  AuthCode : String
  RedirectUri : String
  Scope : String
  AccessToken : String
  AccessExpires : Float64
  RefreshToken : String
  RefreshExpires : Float64
  DefaultRoomId : String
  deriving DecidableEq, Repr

/-- The Go zero value `Configuration{}`. -/
def Configuration.zero : Configuration :=
  { BaseUrl := "", ClientId := "", ClientSecret := "", AuthCode := "",
    RedirectUri := "", Scope := "", AccessToken := "",
    AccessExpires := ⟨0⟩, RefreshToken := "", RefreshExpires := ⟨0⟩,
    DefaultRoomId := "" }

/-- Constant `redirectUrl`, used for the OAuth flow. -/
def redirectUrl : String := "http://files.ducbase.com/code.html"

/-- Constant `scope`, used for the OAuth flow. -/
def scope : String :=
  "spark:people_read spark:rooms_read spark:rooms_write " ++
    "spark:messages_read spark:messages_write spark:memberships_read " ++
    "spark:memberships_write"

/-- Constant `baseUrl` for Cisco Spark API requests. -/
def baseUrl : String := "https://api.ciscospark.com/v1"

/-- Errors of the program.  `new msg` is Go `errors.New(msg)`; the other
constructors are the error kinds the specification gives to the HTTP
client. -/
inductive Error where
  | new (msg : String)
  | notAuthenticated
  | transport (msg : String)
  | http (status : Nat) (body : String)
  | other (msg : String)
  deriving DecidableEq, Repr

/-- Function `GetConfiguration`: the singleton `instance`, constructed empty on first
retrieval.  Returns the record and the new value of the singleton. -/
def GetConfiguration (inst : Option Configuration) : Configuration × Option Configuration :=
  match inst with
  | none => (Configuration.zero, some Configuration.zero)
  | some c => (c, some c)

/-- Method `Configuration.Load`.  The call `decode content c` is `toml.Decode`
of the file content into the record `c`; `file` is the content of the config
file, or the error of reading it.  A failure is fatal (`log.Fatalln`). -/
def Configuration.Load (decode : String → Configuration → Except String Configuration)
    (file : Except String String) (c : Configuration) : Except String Configuration :=
  let decoded : Except String Configuration :=
    match file with
    | .error err => .error err
    | .ok content => decode content c
  match decoded with
  | .error err => .error ("Failed to open file " ++ err)
  | .ok c =>
    let c := if c.RedirectUri = "" then { c with RedirectUri := redirectUrl } else c
    let c := if c.Scope = "" then { c with Scope := scope } else c
    let c := if c.BaseUrl = "" then { c with BaseUrl := baseUrl } else c
    .ok c

/-- Constant `os.PathSeparator` on the Unix systems the program targets. -/
def os.PathSeparator : Char := '/'

/-- Function `findConfigFile`.  Here `homeDir` is the result of `user.Current()` (its
`HomeDir`, or the lookup error, which is fatal), `wd` the working directory
and `stat path` tells whether `os.Stat(path)` succeeds. -/
def findConfigFile (homeDir : Except String String) (wd : String)
    (stat : String → Bool) : Except String String :=
  match homeDir with
  | .error err => .error err
  | .ok home =>
    let paths := [wd, "/etc/sparkcli", home]
    let rec probe : List String → String
      | [] => "sparkcli.toml"
      | basepath :: rest =>
        let path := basepath ++ String.singleton os.PathSeparator ++ "sparkcli.toml"
        if stat path then path else probe rest
    .ok (probe paths)

/-- Method `Configuration.PrintAuthUrl`: the message handed to `log.Printf`. -/
def Configuration.PrintAuthUrl (c : Configuration) : List String :=
  ["Visit \n" ++ c.BaseUrl ++ "/authorize?" ++
    url.Values.Encode
      [("response_type", ["code"]),
       ("client_id", [c.ClientId]),
       ("redirect_uri", [c.RedirectUri]),
       ("scope", [c.Scope])]]

/-- Method `Configuration.checkClientConfig`: the returned error (`none` for `nil`)
and the messages logged on the way. -/
def Configuration.checkClientConfig (c : Configuration) : Option Error × List String :=
  if c.ClientId = "" then (some (.new "ClientId not configured"), [])
  else if c.ClientSecret = "" then (some (.new "ClientSecret not configured"), [])
  else if c.AuthCode = "" then (some (.new "AuthCode not configured"), c.PrintAuthUrl)
  else (none, [])

/-- Method `Configuration.checkAccessToken`. -/
def Configuration.checkAccessToken (c : Configuration) : Bool :=
  if c.AccessToken = "" then false else true

/-!
## The TOML library and `strconv`

The library `github.com/BurntSushi/toml` as it was when the program was
written, on the flat documents that its encoder writes for a
`Configuration`: one line `key = value` per field, a string between double
quotes with the five escapes of the encoder, a float as the text of
`strconv.FormatFloat(x, 'f', -1, 64)` with `.0` appended when it has no
decimal point.  That text is `NaN.0`, `+Inf.0` or `-Inf.0` for a value that
is not finite, and none of the three is a TOML float.
-/

/-- The tab character. -/
def chTab : Char := Char.ofNat 9

/-- The line feed character. -/
def chNewline : Char := Char.ofNat 10

/-- The carriage return character. -/
def chReturn : Char := Char.ofNat 13

/-- The double quote character. -/
def chQuote : Char := Char.ofNat 34

/-- The backslash character. -/
def chBackslash : Char := Char.ofNat 92

/-- Biased exponent of a `float64`: bits 52 to 62 of its pattern. -/
def Float64.exponent (x : Float64) : Nat := x.bits / 2 ^ 52 % 2 ^ 11

/-- Fraction of a `float64`: the low 52 bits of its pattern. -/
def Float64.fraction (x : Float64) : Nat := x.bits % 2 ^ 52

/-- Sign bit of a `float64`: bit 63 of its pattern. -/
def Float64.signBit (x : Float64) : Bool := x.bits / 2 ^ 63 % 2 = 1

/-- Go `strconv.FormatFloat(x, 'f', -1, 64)`: `NaN`, `+Inf` or `-Inf` for a
value that is not finite, and for a finite one the decimal text `digits x`,
the shortest that `strconv.ParseFloat` reads back as `x`. -/
def strconv.FormatFloat (digits : Float64 → List Char) (x : Float64) : List Char :=
  if x.exponent = 2047 then
    if x.fraction ≠ 0 then "NaN".data
    else if x.signBit then "-Inf".data
    else "+Inf".data
  else digits x

/-- Function `floatAddDecimal` of the TOML encoder: a float text without a
decimal point gets `.0` appended. -/
def toml.floatAddDecimal (fnum : List Char) : List Char :=
  if '.' ∈ fnum then fnum else fnum ++ ".0".data

/-- The replacer of the TOML encoder for one character of a string: tab,
line feed, carriage return, double quote and backslash are written with a
backslash, any other character as it is. -/
def toml.escapeChar (c : Char) : List Char :=
  if c = chTab then [chBackslash, 't']
  else if c = chNewline then [chBackslash, 'n']
  else if c = chReturn then [chBackslash, 'r']
  else if c = chQuote then [chBackslash, chQuote]
  else if c = chBackslash then [chBackslash, chBackslash]
  else [c]

/-- A string as the TOML encoder writes it: escaped, between double
quotes. -/
def toml.quoted (s : String) : List Char :=
  chQuote :: (s.data.flatMap toml.escapeChar ++ [chQuote])

/-- The line `key = "value"` of the encoder, without its line feed. -/
def toml.stringLine (key value : String) : List Char :=
  key.data ++ (" = ".data ++ toml.quoted value)

/-- The line `key = value` of the encoder for a float, without its line
feed. -/
def toml.floatLine (digits : Float64 → List Char) (key : String) (x : Float64) : List Char :=
  key.data ++ (" = ".data ++ toml.floatAddDecimal (strconv.FormatFloat digits x))

/-- The lines the TOML encoder writes for a `Configuration`: one `key =
value` line per field, in declaration order, empty strings and zeros
included. -/
def toml.encodeLines (digits : Float64 → List Char) (c : Configuration) : List (List Char) :=
  [toml.stringLine "BaseUrl" c.BaseUrl,
   toml.stringLine "ClientId" c.ClientId,
   toml.stringLine "ClientSecret" c.ClientSecret,
   toml.stringLine "AuthCode" c.AuthCode,
   toml.stringLine "RedirectUri" c.RedirectUri,
   toml.stringLine "Scope" c.Scope,
   toml.stringLine "AccessToken" c.AccessToken,
   toml.floatLine digits "AccessExpires" c.AccessExpires,
   toml.stringLine "RefreshToken" c.RefreshToken,
   toml.floatLine digits "RefreshExpires" c.RefreshExpires,
   toml.stringLine "DefaultRoomId" c.DefaultRoomId]

/-- The text `toml.NewEncoder(buf).Encode(c)` writes for a `Configuration`:
its lines, each ended by a line feed. -/
def toml.Encode (digits : Float64 → List Char) (c : Configuration) : String :=
  String.mk ((toml.encodeLines digits c).flatMap fun line => line ++ [chNewline])

/-- The message resource `Message` of `api/messages.go`. -/
structure Message where
  Id : String
  RoomId : String
  Text : String
  Files : String
  ToPersonId : String
  ToPersonEmail : String
  PersonId : String
  PersonEmail : String
  Created : String
  deriving DecidableEq, Repr

/-- The Go zero value `Message{}`. -/
def Message.zero : Message :=
  { Id := "", RoomId := "", Text := "", Files := "", ToPersonId := "",
    ToPersonEmail := "", PersonId := "", PersonEmail := "", Created := "" }

/-- The list envelope `MessageItems`. -/
structure MessageItems where
  Items : List Message
  deriving DecidableEq, Repr

/-- Body of a request: none, a value to be JSON-encoded, or a multipart form
with the text field `roomId` and the file field `files` (the path given and
the bytes read from it). -/
inductive Body where
  | empty
  | json (msg : Message)
  | multipart (roomId : String) (file : String) (content : String)
  deriving DecidableEq, Repr

/-- The request envelope: method, path relative to `BaseUrl`, the URL
`BaseUrl + path`, the `Accept` and `Authorization` headers and the body. -/
structure Request where
  method : String
  path : String
  url : String
  accept : String
  authorization : String
  body : Body
  deriving DecidableEq, Repr

/-- Observable actions of the process, in the order they happen. -/
inductive Event where
  | constructed (req : Request)
  | executed (req : Request)
  | stdout (text : String)
  | logged (text : String)
  | loggedError (err : Error)
  | printedJson (msg : Message)
  | printedJsonList (msgs : List Message)
  deriving DecidableEq, Repr

/-- Mutable state of the process: the configuration singleton `instance`
and the events so far. -/
structure World where
  inst : Option Configuration
  trace : List Event
  deriving DecidableEq, Repr

/-- What the network returns for a request: a transport failure or a
response with its status code and body. -/
inductive Reply where
  | failure (msg : String)
  | response (status : Nat) (body : String)
  deriving DecidableEq, Repr

/-- The HTTP client: the configuration it was created with and its
environment, that is the remote service, the JSON decoder for each target
type, and the files it can read. -/
structure Client where
  Config : Configuration
  roundTrip : Request → Reply
  decodeMessage : String → Message → Except Error Message
  decodeItems : String → MessageItems → Except Error MessageItems
  readFile : String → Except Error String

/-- Modelled from the spec: the common request construction of
`util/client.go`, which is not among the sources.  Every request has URL
`BaseUrl + path`, `Accept: application/json` and `Authorization: Bearer
<AccessToken>` read from the configuration at construction time; an empty
access token is a construction-time `not-authenticated` error. -/
def Client.newRequest (cl : Client) (method path : String) (body : Body) (w : World) :
    Except Error Request × World :=
  if cl.Config.AccessToken = "" then (.error .notAuthenticated, w)
  else
    let req : Request :=
      { method := method, path := path, url := cl.Config.BaseUrl ++ path,
        accept := "application/json",
        authorization := "Bearer " ++ cl.Config.AccessToken, body := body }
    (.ok req, { w with trace := w.trace ++ [.constructed req] })

/-- Modelled from the spec: `Client.NewGetRequest(path)` of `util/client.go`. -/
def Client.NewGetRequest (cl : Client) (path : String) (w : World) :
    Except Error Request × World :=
  cl.newRequest "GET" path .empty w

/-- Modelled from the spec: `Client.NewPostRequest(path, bodyValue)` of
`util/client.go`; the body value is JSON-encoded. -/
def Client.NewPostRequest (cl : Client) (path : String) (msg : Message) (w : World) :
    Except Error Request × World :=
  cl.newRequest "POST" path (.json msg) w

/-- Modelled from the spec: `Client.NewFilePostRequest(path, roomId,
filePath)` of `util/client.go`; a multipart form with the text field
`roomId` and the file field `files`. -/
def Client.NewFilePostRequest (cl : Client) (path roomId file : String) (w : World) :
    Except Error Request × World :=
  match cl.readFile file with
  | .error err => (.error err, w)
  | .ok content => cl.newRequest "POST" path (.multipart roomId file content) w

/-- Modelled from the spec: `Client.NewDeleteRequest(path)` of
`util/client.go`. -/
def Client.NewDeleteRequest (cl : Client) (path : String) (w : World) :
    Except Error Request × World :=
  cl.newRequest "DELETE" path .empty w

/-- Modelled from the spec: `Client.Do(request, decodeTarget)` of
`util/client.go`.  The request is executed; a transport failure is a
`transport-error`; a status in `[200, 300)` decodes the body into the target;
a status of 400 or more is an `http-error` with status and body; otherwise
the target is left as it was. -/
def Client.Do {α : Type} (cl : Client) (req : Request)
    (decode : String → α → Except Error α) (target : α) (w : World) :
    Except Error α × World :=
  let w := { w with trace := w.trace ++ [.executed req] }
  match cl.roundTrip req with
  | .failure msg => (.error (.transport msg), w)
  | .response status body =>
    if 200 ≤ status ∧ status < 300 then (decode body target, w)
    else if 400 ≤ status then (.error (.http status body), w)
    else (.ok target, w)

/-! ## api/messages.go -/

/-- The service `MessageService`. -/
structure MessageService where
  Client : Client

/-- Method `MessageService.List`. -/
def MessageService.List (m : MessageService) (roomId : String) (w : World) :
    Except Error (List Message) × World :=
  match m.Client.NewGetRequest ("/messages?roomId=" ++ roomId) w with
  | (.error err, w) => (.error err, w)
  | (.ok req, w) =>
    match m.Client.Do req m.Client.decodeItems ⟨[]⟩ w with
    | (.error err, w) => (.error err, w)
    | (.ok result, w) => (.ok result.Items, w)

/-- Lines 60 to 88 of `MessageService.Create`: build the message for the
resolved room identifier, post it, decode the reply. -/
def MessageService.Create.send (m : MessageService) (roomId txt : String) (w : World) :
    Except Error Message × World :=
  let msg : Message := { Message.zero with Text := txt }
  let splitRoom := strings.SplitN roomId ':' 2
  let msg : Message :=
    match splitRoom with
    | recipientType :: rest :: _ =>
      if recipientType = "email" then { msg with ToPersonEmail := rest }
      else { msg with RoomId := rest }
    | _ => { msg with RoomId := roomId }
  match m.Client.NewPostRequest "/messages" msg w with
  | (.error err, w) => (.error err, w)
  | (.ok req, w) => m.Client.Do req m.Client.decodeMessage Message.zero w

/-- Method `MessageService.Create`. -/
def MessageService.Create (m : MessageService) (roomId txt : String) (w : World) :
    Except Error Message × World :=
  if roomId = "-" then
    let (config, inst) := GetConfiguration w.inst
    let w := { w with inst := inst }
    if config.DefaultRoomId ≠ "" then
      MessageService.Create.send m config.DefaultRoomId txt w
    else (.error (.new "No DefaultRoomId configured."), w)
  else MessageService.Create.send m roomId txt w

/-- Lines 102 to 111 of `MessageService.CreateFile`: post the file to the
resolved room, decode the reply. -/
def MessageService.CreateFile.send (m : MessageService) (roomId file : String) (w : World) :
    Except Error Message × World :=
  match m.Client.NewFilePostRequest "/messages" roomId file w with
  | (.error err, w) => (.error err, w)
  | (.ok req, w) => m.Client.Do req m.Client.decodeMessage Message.zero w

/-- Method `MessageService.CreateFile`. -/
def MessageService.CreateFile (m : MessageService) (roomId file : String) (w : World) :
    Except Error Message × World :=
  if roomId = "-" then
    let (config, inst) := GetConfiguration w.inst
    let w := { w with inst := inst }
    if config.DefaultRoomId ≠ "" then
      MessageService.CreateFile.send m config.DefaultRoomId file w
    else (.error (.new "No DefaultRoomId configured."), w)
  else MessageService.CreateFile.send m roomId file w

/-- Method `MessageService.Get`. -/
def MessageService.Get (m : MessageService) (id : String) (w : World) :
    Except Error Message × World :=
  if id = "" then (.error (.new "id can't be empty when getting message"), w)
  else
    match m.Client.NewGetRequest ("/messages/" ++ id) w with
    | (.error err, w) => (.error err, w)
    | (.ok req, w) => m.Client.Do req m.Client.decodeMessage Message.zero w

/-- Method `MessageService.Delete`: the returned error, `none` for `nil`. -/
def MessageService.Delete (m : MessageService) (id : String) (w : World) :
    Option Error × World :=
  if id = "" then (some (.new "id can't be empty when deleting a message"), w)
  else
    match m.Client.NewDeleteRequest ("/messages/" ++ id) w with
    | (.error err, w) => (some err, w)
    | (.ok req, w) =>
      match m.Client.Do req (fun _ (u : Unit) => Except.ok u) () w with
      | (.error err, w) => (some err, w)
      | (.ok _, w) => (none, w)

/-! ## sparkcli.go -/

/-- Method `Args.Get(n)` of the command-line library: the `n`-th argument, or
the empty string when there is none. -/
def Args.Get (args : List String) (n : Nat) : String :=
  args.getD n ""

/-- Method `Args.Tail()` of the command-line library: all arguments but the
first. -/
def Args.Tail (args : List String) : List String :=
  if args.length ≥ 2 then args.drop 1 else []

/-- Go `log.Fatal(text)`: log the text and exit with status 1. -/
def logFatal (text : String) (w : World) : Nat × World :=
  (1, { w with trace := w.trace ++ [.logged text] })

/-- The action of `messages create text`.  `config` is the record behind the
pointer `config` of `main`, `client` the client of `main`, `jsonFlag` the
flag `-j` and `args` the arguments after the subcommand.  Returns the exit
status of the process. -/
def messagesCreateText (config : Configuration) (client : Client) (jsonFlag : Bool)
    (args : List String) (w : World) : Nat × World :=
  if args.length < 1 then
    logFatal "Usage: sparkcli messages create text <room> <msg>" w
  else
    let id := Args.Get args 0
    let run (id : String) (w : World) : Nat × World :=
      let msgTxt := strings.Join (Args.Tail args) " "
      let msgService : MessageService := { Client := client }
      match msgService.Create id msgTxt w with
      | (.error err, w) => (1, { w with trace := w.trace ++ [.loggedError err] })
      | (.ok msg, w) =>
        if jsonFlag then (0, { w with trace := w.trace ++ [.printedJson msg] })
        else (0, { w with trace := w.trace ++ [.stdout msg.Id] })
    if id = "-" then
      let id := config.DefaultRoomId
      if id = "" then
        logFatal "Usage: sparkcli messages list <roomId>"
          { w with trace := w.trace ++ [.logged "No default room configured."] }
      else run id w
    else run id w

/-- The action of `messages list`, with the same parameters as
`messagesCreateText`.  Returns the exit status of the process. -/
def messagesList (config : Configuration) (client : Client) (jsonFlag : Bool)
    (args : List String) (w : World) : Nat × World :=
  if args.length > 1 then
    logFatal "Usage: sparkcli messages list <roomid>" w
  else
    let id := Args.Get args 0
    let run (id : String) (w : World) : Nat × World :=
      let msgService : MessageService := { Client := client }
      match msgService.List id w with
      | (.error err, w) => (1, { w with trace := w.trace ++ [.loggedError err] })
      | (.ok msgs, w) =>
        if jsonFlag then (0, { w with trace := w.trace ++ [.printedJsonList msgs] })
        else
          let line (msg : Message) : Event :=
            Event.stdout
              ("[" ++ msg.Created ++ "] " ++ msg.PersonEmail ++ ": " ++ msg.Text ++ "\n")
          (0, { w with trace := w.trace ++ msgs.map line })
    if id = "" then
      let id := config.DefaultRoomId
      if id = "" then
        logFatal "Usage: sparkcli messages list <roomId>"
          { w with trace := w.trace ++ [.logged "No default room configured."] }
      else run id w
    else run id w

/-! ## Vocabulary of the properties -/

/-- Lower-case hexadecimal digit of a value below 16. -/
def lowerHexDigit (n : Nat) : Char :=
  "0123456789abcdef".data.getD n '0'

/-- Escape of one character inside a JSON string by Go `encoding/json` with
its default HTML escaping: quote and backslash get a backslash, newline,
carriage return and tab their short form, other control characters and `<`,
`>`, `&` the form `\u00XX`, and the line separators U+2028 and U+2029 their
`\u` form.  This is the encoder up to Go 1.21; from Go 1.22 on, backspace
and form feed are written `\b` and `\f` instead of `\u0008` and `\u000c`. -/
def json.escapeChar (c : Char) : List Char :=
  let bs := Char.ofNat 92
  if c.toNat = 34 ∨ c.toNat = 92 then [bs, c]
  else if c.toNat = 10 then [bs, 'n']
  else if c.toNat = 13 then [bs, 'r']
  else if c.toNat = 9 then [bs, 't']
  else if c.toNat < 32 ∨ c = '<' ∨ c = '>' ∨ c = '&' then
    [bs, 'u', '0', '0', lowerHexDigit (c.toNat / 16), lowerHexDigit (c.toNat % 16)]
  else if c.toNat = 0x2028 then [bs, 'u', '2', '0', '2', '8']
  else if c.toNat = 0x2029 then [bs, 'u', '2', '0', '2', '9']
  else [c]

/-- A string as a JSON string literal. -/
def json.quote (s : String) : String :=
  String.mk ([Char.ofNat 34] ++ s.data.flatMap json.escapeChar ++ [Char.ofNat 34])

/-- Members of the JSON object that `encoding/json` writes for a `Message`:
the fields in declaration order under their tag names, a field with the
empty string left out (`omitempty`). -/
def Message.jsonFields (msg : Message) : List (String × String) :=
  [("id", msg.Id), ("roomId", msg.RoomId), ("text", msg.Text), ("files", msg.Files),
   ("toPersonId", msg.ToPersonId), ("toPersonEmail", msg.ToPersonEmail),
   ("personId", msg.PersonId), ("personEmail", msg.PersonEmail),
   ("created", msg.Created)].filter fun f => f.2 ≠ ""

/-- JSON text of a `Message`. -/
def Message.marshal (msg : Message) : String :=
  "\x7b" ++ ",".intercalate (msg.jsonFields.map fun f => json.quote f.1 ++ ":" ++ json.quote f.2)
    ++ "\x7d"

/-- The request the client constructs for `POST /messages` with the body
`msg` under the configuration `cfg`. -/
def postMessageRequest (cfg : Configuration) (msg : Message) : Request :=
  { method := "POST", path := "/messages", url := cfg.BaseUrl ++ "/messages",
    accept := "application/json", authorization := "Bearer " ++ cfg.AccessToken,
    body := .json msg }

/-- The request the client constructs for `GET path` under `cfg`. -/
def getRequest (cfg : Configuration) (path : String) : Request :=
  { method := "GET", path := path, url := cfg.BaseUrl ++ path,
    accept := "application/json", authorization := "Bearer " ++ cfg.AccessToken,
    body := .empty }

/-- Events of posting `msg` through the client `cl`: with an access token
the request is constructed and then executed, without one nothing is sent. -/
def postMessageEvents (cl : Client) (msg : Message) : List Event :=
  if cl.Config.AccessToken = "" then []
  else [.constructed (postMessageRequest cl.Config msg),
        .executed (postMessageRequest cl.Config msg)]

/-- Events of a `GET path` through the client `cl`. -/
def getEvents (cl : Client) (path : String) : List Event :=
  if cl.Config.AccessToken = "" then []
  else [.constructed (getRequest cl.Config path), .executed (getRequest cl.Config path)]

/-- Names of the query-string parameters of a path: the text after the first
`?`, cut at every `&`, each non-empty piece taken up to its first `=`. -/
def queryParamNames (path : String) : List String :=
  match cutFirst '?' path.data with
  | none => []
  | some (_, query) =>
    ((splitNChars '&' (query.length + 1) query).filter fun piece => piece ≠ []).map
      fun piece =>
        match cutFirst '=' piece with
        | none => String.mk piece
        | some (name, _) => String.mk name

/-- Form encoding of a query whose parameters are written in the order
given: `name=value` pairs, both sides query-escaped, joined by `&`. -/
def formEncode (params : List (String × String)) : String :=
  "&".intercalate (params.map fun kv => url.QueryEscape kv.1 ++ "=" ++ url.QueryEscape kv.2)

/-- The three candidate locations of the config file, in probing order. -/
def configCandidates (wd home : String) : List String :=
  [wd ++ "/sparkcli.toml", "/etc/sparkcli/sparkcli.toml", home ++ "/sparkcli.toml"]

/-- A TOML decoder that is only defined on the empty document, which has no
key and so assigns no field. -/
def decodeEmptyOnly (content : String) (c : Configuration) : Except String Configuration :=
  if content = "" then .ok c else .error "unsupported document"

/-- A configuration with one-letter client id, redirect and scope. -/
def demoConfig : Configuration :=
  { Configuration.zero with BaseUrl := baseUrl, ClientId := "c", RedirectUri := "r", Scope := "s" }

/-- The message whose only fields are the text `txt` and the recipient
address `a`. -/
def emailTextMessage (a txt : String) : Message :=
  { Id := "", RoomId := "", Text := txt, Files := "", ToPersonId := "",
    ToPersonEmail := a, PersonId := "", PersonEmail := "", Created := "" }

/-- A client with the access token `A` against the production endpoint,
whose service answers every request with status 200 and an empty object. -/
def demoClient : Client :=
  { Config := { Configuration.zero with BaseUrl := baseUrl, AccessToken := "A" },
    roundTrip := fun _ => .response 200 "\x7b\x7d",
    decodeMessage := fun _ target => .ok target,
    decodeItems := fun _ target => .ok target,
    readFile := fun _ => .ok "" }

/-- A configuration whose default room is `RID`. -/
def roomConfig : Configuration :=
  { Configuration.zero with BaseUrl := baseUrl, AccessToken := "A", DefaultRoomId := "RID" }

/-- A process state whose configuration singleton is `roomConfig`. -/
def roomWorld : World := { inst := some roomConfig, trace := [] }

/-- True for the events that construct or execute a request. -/
def Event.isRequest : Event → Bool
  | .constructed _ => true
  | .executed _ => true
  | _ => false

/-- The message service over `demoClient`. -/
def demoService : MessageService := { Client := demoClient }

/-- A process state with no configuration singleton yet and no event. -/
def freshWorld : World := { inst := none, trace := [] }

/-! ## Lemmas on the string helpers -/

/-- A list without the separator is not cut. -/
theorem cutFirst_eq_none (sep : Char) (cs : List Char) (h : sep ∉ cs) :
    cutFirst sep cs = none := by
  induction cs with
  | nil => rfl
  | cons c cs ih =>
    have hc : c ≠ sep := fun e => h (by simp [e])
    have hcs : sep ∉ cs := fun e => h (by simp [e])
    simp [cutFirst, hc, ih hcs]

/-- A list is cut at the first separator: a part without the separator,
then the separator, then the rest. -/
theorem cutFirst_append (sep : Char) (p rest : List Char) (h : sep ∉ p) :
    cutFirst sep (p ++ sep :: rest) = some (p, rest) := by
  induction p with
  | nil => simp [cutFirst]
  | cons c cs ih =>
    have hc : c ≠ sep := fun e => h (by simp [e])
    have hcs : sep ∉ cs := fun e => h (by simp [e])
    simp [cutFirst, hc, ih hcs]

/-- The split `SplitN(r, ":", 2)` of a string without a colon is the string itself. -/
theorem splitN_no_colon (r : String) (h : ':' ∉ r.data) :
    strings.SplitN r ':' 2 = [r] := by
  simp [strings.SplitN, splitNChars, cutFirst_eq_none _ _ h]

/-- The split `SplitN(p + ":" + rest, ":", 2)` cuts at the first colon. -/
theorem splitN_colon (p rest : String) (h : ':' ∉ p.data) :
    strings.SplitN (p ++ ":" ++ rest) ':' 2 = [p, rest] := by
  have e : (p ++ ":" ++ rest).data = p.data ++ ':' :: rest.data := by
    simp [String.data_append]
  simp [strings.SplitN, splitNChars, e, cutFirst_append _ _ _ h]

/-- A string with a colon in it is not the sentinel `-`. -/
theorem colon_ne_sentinel (p rest : String) : p ++ ":" ++ rest ≠ "-" := by
  intro e
  have h := congrArg String.data e
  have hl : (p.data ++ (':' :: rest.data)).length = 1 := by
    have := congrArg List.length h
    simpa [String.data_append] using this
  simp only [List.length_append, List.length_cons] at hl
  have h0 : p.data = [] := List.length_eq_zero.mp (by omega)
  have h3 : rest.data = [] := List.length_eq_zero.mp (by omega)
  rw [String.data_append, String.data_append, h0, h3] at h
  exact absurd h (by decide)

/-! ## Lemmas on the HTTP client -/

/-- Executing a request adds exactly the event of its execution. -/
theorem Client.Do_world {α : Type} (cl : Client) (req : Request)
    (decode : String → α → Except Error α) (target : α) (w : World) :
    (cl.Do req decode target w).2 = { w with trace := w.trace ++ [.executed req] } := by
  unfold Client.Do
  cases cl.roundTrip req with
  | failure msg => rfl
  | response status body =>
    simp only []
    split
    · rfl
    · split <;> rfl

/-- Posting a message: without an access token nothing is sent, with one
the request is constructed and then executed. -/
theorem post_message_trace (cl : Client) (msg : Message) (w : World) :
    (match cl.NewPostRequest "/messages" msg w with
      | (.error err, w) => ((.error err, w) : Except Error Message × World)
      | (.ok req, w) => cl.Do req cl.decodeMessage Message.zero w).2.trace
    = w.trace ++ postMessageEvents cl msg := by
  by_cases ht : cl.Config.AccessToken = ""
  · simp [Client.NewPostRequest, Client.newRequest, ht, postMessageEvents]
  · simp [Client.NewPostRequest, Client.newRequest, ht, Client.Do_world, postMessageRequest,
      postMessageEvents]

/-- A cut of `p ++ x` where `p` has no separator is the cut of `x` behind
`p`. -/
theorem cutFirst_append_left (sep : Char) (p x : List Char) (h : sep ∉ p) :
    cutFirst sep (p ++ x) =
      match cutFirst sep x with
      | none => none
      | some (a, b) => some (p ++ a, b) := by
  induction p with
  | nil =>
    cases hx : cutFirst sep x with
    | none => simp [hx]
    | some v => simp [hx]
  | cons c cs ih =>
    have hc : c ≠ sep := fun e => h (by simp [e])
    have hcs : sep ∉ cs := fun e => h (by simp [e])
    rw [List.cons_append]
    simp only [cutFirst, hc, if_false]
    rw [ih hcs]
    cases hx : cutFirst sep x with
    | none => rfl
    | some v => rfl

/-- The first piece of a split of `p ++ x`, where `p` has no separator and
at least two pieces are allowed, starts with `p`. -/
theorem splitNChars_head (sep : Char) (n : Nat) (p x : List Char) (h : sep ∉ p) :
    ∃ a rest, splitNChars sep (n + 2) (p ++ x) = (p ++ a) :: rest := by
  unfold splitNChars
  rw [cutFirst_append_left sep p x h]
  cases cutFirst sep x with
  | none => exact ⟨x, [], rfl⟩
  | some v => exact ⟨v.1, splitNChars sep (n + 1) v.2, rfl⟩

/-- A path `/messages?roomId=` followed by anything has the query parameter
`roomId`. -/
theorem roomId_mem_queryParamNames (roomId : String) :
    "roomId" ∈ queryParamNames ("/messages?roomId=" ++ roomId) := by
  have e : ("/messages?roomId=" ++ roomId).data
      = "/messages".data ++ '?' :: ("roomId=".data ++ roomId.data) := by
    simp [String.data_append]
  have hlen : ("roomId=".data ++ roomId.data).length + 1 = (roomId.data.length + 6) + 2 := by
    have h7 : "roomId=".data.length = 7 := rfl
    rw [List.length_append, h7]
    omega
  obtain ⟨a, rest, hsplit⟩ :=
    splitNChars_head '&' (roomId.data.length + 6) "roomId=".data roomId.data (by decide)
  have hcut : cutFirst '=' ("roomId=".data ++ a) = some ("roomId".data, a) := by
    have := cutFirst_append '=' "roomId".data a (by decide)
    simpa using this
  unfold queryParamNames
  rw [e, cutFirst_append '?' _ _ (by decide)]
  simp only []
  rw [hlen, hsplit, List.filter_cons_of_pos (by simp), List.map_cons, hcut]
  exact List.mem_cons_self _ _

/-- The four keys of the consent query in ascending order. -/
theorem sortByKey_consent (a b c d : List String) :
    url.sortByKey
      [("response_type", a), ("client_id", b), ("redirect_uri", c), ("scope", d)]
    = [("client_id", b), ("redirect_uri", c), ("response_type", a), ("scope", d)] := by
  have h1 : stringLess "redirect_uri".data "scope".data = true := by decide
  have h2 : stringLess "client_id".data "redirect_uri".data = true := by decide
  have h3 : stringLess "response_type".data "client_id".data = false := by decide
  have h4 : stringLess "response_type".data "redirect_uri".data = false := by decide
  have h5 : stringLess "response_type".data "scope".data = true := by decide
  simp only [url.sortByKey, url.insertByKey, h1, h2, h3, h4, h5, if_true]
  simp

/-- Trace of `Create` on an identifier `email:<a>`. -/
theorem create_email_trace (m : MessageService) (a t : String) (w : World) :
    (m.Create ("email:" ++ a) t w).2.trace
      = w.trace ++ postMessageEvents m.Client (emailTextMessage a t) := by
  have hs : strings.SplitN ("email:" ++ a) ':' 2 = ["email", a] := by
    have := splitN_colon "email" a (by decide)
    simpa [String.append_assoc] using this
  have hne : "email:" ++ a ≠ "-" := by
    have := colon_ne_sentinel "email" a
    simpa [String.append_assoc] using this
  unfold MessageService.Create
  rw [if_neg hne]
  unfold MessageService.Create.send
  rw [hs]
  exact post_message_trace m.Client _ w

/-- Trace of `List`: the events of one `GET /messages?roomId=<roomId>`. -/
theorem list_trace (m : MessageService) (roomId : String) (w : World) :
    (m.List roomId w).2.trace
      = w.trace ++ getEvents m.Client ("/messages?roomId=" ++ roomId) := by
  unfold MessageService.List
  by_cases ht : m.Client.Config.AccessToken = ""
  · simp [Client.NewGetRequest, Client.newRequest, ht, getEvents]
  · simp only [Client.NewGetRequest, Client.newRequest, ht, if_false]
    have h := Client.Do_world m.Client
      (getRequest m.Client.Config ("/messages?roomId=" ++ roomId)) m.Client.decodeItems ⟨[]⟩
      { w with trace := w.trace ++
        [.constructed (getRequest m.Client.Config ("/messages?roomId=" ++ roomId))] }
    simp only [getRequest] at h
    split
    · rename_i e w1 heq
      have := congrArg Prod.snd heq
      simp only [h] at this
      simp [← this, getEvents, ht, getRequest]
    · rename_i r w1 heq
      have := congrArg Prod.snd heq
      simp only [h] at this
      simp [← this, getEvents, ht, getRequest]

/-- With a default room configured, the sentinel `-` resolves to it and the
process state is left as it is. -/
theorem default_room_resolved (w : World) (d : String)
    (hd : (GetConfiguration w.inst).1.DefaultRoomId = d) (hne : d ≠ "") :
    (GetConfiguration w.inst).1.DefaultRoomId = d ∧
    ({ w with inst := (GetConfiguration w.inst).2 } : World) = w := by
  refine ⟨hd, ?_⟩
  cases w with
  | mk inst trace =>
    cases inst with
    | none => exact absurd hd.symm (by simpa [GetConfiguration, Configuration.zero] using hne)
    | some c => rfl

/-! ## Lemmas on the TOML codec -/

/-- C1: with an empty `DefaultRoomId` in the configuration singleton (or no
singleton yet), `Create("-", text)` and `CreateFile("-", path)` each return
the error "No DefaultRoomId configured." and no result, and add no event to
the trace: no request is constructed or executed. -/
theorem create_without_default_room (m : MessageService) (text path : String) (w : World)
    (h : (GetConfiguration w.inst).1.DefaultRoomId = "") :
    (m.Create "-" text w).1 = .error (.new "No DefaultRoomId configured.") ∧
    (m.CreateFile "-" path w).1 = .error (.new "No DefaultRoomId configured.") ∧
    (m.Create "-" text w).2.trace = w.trace ∧
    (m.CreateFile "-" path w).2.trace = w.trace := by
  simp [MessageService.Create, MessageService.CreateFile, h]

/-- Witness of C1 on the demo service in a fresh process. -/
theorem create_without_default_room_witness :
    (GetConfiguration freshWorld.inst).1.DefaultRoomId = "" ∧
    (demoService.Create "-" "hello" freshWorld).1 = .error (.new "No DefaultRoomId configured.") ∧
    (demoService.CreateFile "-" "/tmp/a.png" freshWorld).1
      = .error (.new "No DefaultRoomId configured.") ∧
    (demoService.Create "-" "hello" freshWorld).2.trace = freshWorld.trace ∧
    (demoService.CreateFile "-" "/tmp/a.png" freshWorld).2.trace = freshWorld.trace :=
  ⟨rfl, create_without_default_room demoService "hello" "/tmp/a.png" freshWorld rfl⟩

/-- C2: `Create("email:" ++ a, t)` hands to `POST /messages` the message
with `toPersonEmail = a`, `text = t` and every other field, `roomId`
included, empty; this for every `a`, with or without a colon in it.  With an
access token the request is constructed and executed; without one nothing is
sent. -/
theorem create_email_recipient (m : MessageService) (a t : String) (w : World) :
    (m.Create ("email:" ++ a) t w).2.trace = w.trace ++
      postMessageEvents m.Client
        { Id := "", RoomId := "", Text := t, Files := "", ToPersonId := "",
          ToPersonEmail := a, PersonId := "", PersonEmail := "", Created := "" } := by
  exact create_email_trace m a t w

/-- C3, as stated, fails: `room:abc` is neither `-` nor of the form
`email:<address>`, and `Create("room:abc", "hi")` sends the message with
`roomId = "abc"`, not `"room:abc"`. -/
theorem create_room_verbatim_counterexample :
    "room:abc" ≠ "-" ∧ (∀ a : String, "room:abc" ≠ "email:" ++ a) ∧
    (demoService.Create "room:abc" "hi" freshWorld).2.trace =
      postMessageEvents demoClient
        { Id := "", RoomId := "abc", Text := "hi", Files := "", ToPersonId := "",
          ToPersonEmail := "", PersonId := "", PersonEmail := "", Created := "" } ∧
    (demoService.Create "room:abc" "hi" freshWorld).2.trace ≠
      postMessageEvents demoClient
        { Id := "", RoomId := "room:abc", Text := "hi", Files := "", ToPersonId := "",
          ToPersonEmail := "", PersonId := "", PersonEmail := "", Created := "" } := by
  refine ⟨by decide, ?_, by decide, by decide⟩
  intro a e
  have h := congrArg (fun s => s.data.head?) e
  simp [String.data_append] at h

/-- C3, amended: for a room identifier `r` other than `-` and without a
colon, `Create(r, t)` sends the message with `roomId = r`; for an identifier
`p:rest` whose part `p` before the first colon is not `email`, it sends the
message with `roomId = rest`, the part after that colon.  In both cases
`toPersonEmail` is empty and `text` is `t`. -/
theorem create_room_identifier (m : MessageService) (t : String) (w : World)
    (r p rest : String) (hr : r ≠ "-") (hrc : ':' ∉ r.data)
    (hp : ':' ∉ p.data) (hpe : p ≠ "email") :
    (m.Create r t w).2.trace = w.trace ++
      postMessageEvents m.Client
        { Id := "", RoomId := r, Text := t, Files := "", ToPersonId := "",
          ToPersonEmail := "", PersonId := "", PersonEmail := "", Created := "" } ∧
    (m.Create (p ++ ":" ++ rest) t w).2.trace = w.trace ++
      postMessageEvents m.Client
        { Id := "", RoomId := rest, Text := t, Files := "", ToPersonId := "",
          ToPersonEmail := "", PersonId := "", PersonEmail := "", Created := "" } := by
  constructor
  · unfold MessageService.Create
    rw [if_neg hr]
    unfold MessageService.Create.send
    rw [splitN_no_colon r hrc]
    exact post_message_trace m.Client _ w
  · unfold MessageService.Create
    rw [if_neg (colon_ne_sentinel p rest)]
    unfold MessageService.Create.send
    rw [splitN_colon p rest hp]
    simp only [hpe, if_false]
    exact post_message_trace m.Client _ w

/-- Witness of the amended C3 at `RID` and `room:abc`. -/
theorem create_room_identifier_witness :
    (demoService.Create "RID" "hi" freshWorld).2.trace = freshWorld.trace ++
      postMessageEvents demoService.Client
        { Id := "", RoomId := "RID", Text := "hi", Files := "", ToPersonId := "",
          ToPersonEmail := "", PersonId := "", PersonEmail := "", Created := "" } ∧
    (demoService.Create ("room" ++ ":" ++ "abc") "hi" freshWorld).2.trace = freshWorld.trace ++
      postMessageEvents demoService.Client
        { Id := "", RoomId := "abc", Text := "hi", Files := "", ToPersonId := "",
          ToPersonEmail := "", PersonId := "", PersonEmail := "", Created := "" } :=
  create_room_identifier demoService "hi" freshWorld "RID" "room" "abc"
    (by decide) (by decide) (by decide) (by decide)

/-- C4: `Get("")` and `Delete("")` return the errors "id can't be empty
when getting message" and "id can't be empty when deleting a message" and
leave the process state, trace included, as it was: the check comes before
any use of the client, whatever the configuration and the client. -/
theorem get_delete_empty_id (m : MessageService) (w : World) :
    m.Get "" w = (.error (.new "id can't be empty when getting message"), w) ∧
    m.Delete "" w = (some (.new "id can't be empty when deleting a message"), w) := by
  constructor
  · simp [MessageService.Get]
  · simp [MessageService.Delete]

/-- C9, as stated, fails: `List("")` on an authenticated client requests the
path `/messages?roomId=`, which carries the parameter `roomId`. -/
theorem list_empty_room_counterexample :
    (demoService.List "" freshWorld).2.trace =
      [.constructed (getRequest demoClient.Config "/messages?roomId="),
       .executed (getRequest demoClient.Config "/messages?roomId=")] ∧
    "roomId" ∈ queryParamNames "/messages?roomId=" := by
  constructor <;> decide

/-- C9, amended: `List(roomId)` requests the path `/messages?roomId=`
followed by `roomId` for every `roomId`, the empty one included, and that
path always carries the parameter `roomId`. -/
theorem list_path_carries_room (m : MessageService) (roomId : String) (w : World) :
    (m.List roomId w).2.trace = w.trace ++ getEvents m.Client ("/messages?roomId=" ++ roomId) ∧
    "roomId" ∈ queryParamNames ("/messages?roomId=" ++ roomId) := by
  constructor
  · exact list_trace m roomId w
  · exact roomId_mem_queryParamNames roomId

/-! ## Properties of the configuration store -/

/-- C5: when the decoder accepts the file and yields the record `d`, `Load`
returns a record `c` in which `BaseUrl`, `RedirectUri` and `Scope` are those
of `d` when non-empty and the defaults otherwise, so none of the three is
empty, and every other field is that of `d`; when `d` is the zero record (an
empty file decoded into a fresh record), `c` is the zero record with the
three defaults. -/
theorem load_applies_defaults
    (decode : String → Configuration → Except String Configuration)
    (content : String) (prior d : Configuration) (hd : decode content prior = .ok d) :
    ∃ c, Configuration.Load decode (.ok content) prior = .ok c ∧
      c.BaseUrl = (if d.BaseUrl = "" then baseUrl else d.BaseUrl) ∧
      c.RedirectUri = (if d.RedirectUri = "" then redirectUrl else d.RedirectUri) ∧
      c.Scope = (if d.Scope = "" then scope else d.Scope) ∧
      c.BaseUrl ≠ "" ∧ c.RedirectUri ≠ "" ∧ c.Scope ≠ "" ∧
      c.ClientId = d.ClientId ∧ c.ClientSecret = d.ClientSecret ∧
      c.AuthCode = d.AuthCode ∧ c.AccessToken = d.AccessToken ∧
      c.AccessExpires = d.AccessExpires ∧ c.RefreshToken = d.RefreshToken ∧
      c.RefreshExpires = d.RefreshExpires ∧ c.DefaultRoomId = d.DefaultRoomId ∧
      (d = Configuration.zero →
        c = { BaseUrl := baseUrl, ClientId := "", ClientSecret := "", AuthCode := "",
              RedirectUri := redirectUrl, Scope := scope, AccessToken := "",
              AccessExpires := ⟨0⟩, RefreshToken := "", RefreshExpires := ⟨0⟩,
              DefaultRoomId := "" }) := by
  have hb : baseUrl ≠ "" := by decide
  have hr : redirectUrl ≠ "" := by decide
  have hs : scope ≠ "" := by decide
  refine ⟨_, by simp only [Configuration.Load, hd]; rfl, ?_⟩
  by_cases h1 : d.RedirectUri = "" <;> by_cases h2 : d.Scope = "" <;>
    by_cases h3 : d.BaseUrl = "" <;>
    simp [h1, h2, h3, hb, hr, hs] <;>
    (intro hz; subst hz; simp_all [Configuration.zero])

/-- Witness of C5: the empty file loaded into a fresh record. -/
theorem load_applies_defaults_witness :
    ∃ c, Configuration.Load decodeEmptyOnly (.ok "") Configuration.zero = .ok c ∧
      c.BaseUrl = (if Configuration.zero.BaseUrl = "" then baseUrl else Configuration.zero.BaseUrl) ∧
      c.RedirectUri =
        (if Configuration.zero.RedirectUri = "" then redirectUrl
         else Configuration.zero.RedirectUri) ∧
      c.Scope = (if Configuration.zero.Scope = "" then scope else Configuration.zero.Scope) ∧
      c.BaseUrl ≠ "" ∧ c.RedirectUri ≠ "" ∧ c.Scope ≠ "" ∧
      c.ClientId = Configuration.zero.ClientId ∧
      c.ClientSecret = Configuration.zero.ClientSecret ∧
      c.AuthCode = Configuration.zero.AuthCode ∧
      c.AccessToken = Configuration.zero.AccessToken ∧
      c.AccessExpires = Configuration.zero.AccessExpires ∧
      c.RefreshToken = Configuration.zero.RefreshToken ∧
      c.RefreshExpires = Configuration.zero.RefreshExpires ∧
      c.DefaultRoomId = Configuration.zero.DefaultRoomId ∧
      (Configuration.zero = Configuration.zero →
        c = { BaseUrl := baseUrl, ClientId := "", ClientSecret := "", AuthCode := "",
              RedirectUri := redirectUrl, Scope := scope, AccessToken := "",
              AccessExpires := ⟨0⟩, RefreshToken := "", RefreshExpires := ⟨0⟩,
              DefaultRoomId := "" }) :=
  load_applies_defaults decodeEmptyOnly "" Configuration.zero Configuration.zero rfl

/-- C6: `checkClientConfig` returns no error exactly when `ClientId`,
`ClientSecret` and `AuthCode` are all non-empty; otherwise it returns the
error of the first empty field in the order `ClientId`, `ClientSecret`,
`AuthCode`; and it logs the consent URL exactly when the error returned is
the one for `AuthCode`, logging nothing otherwise. -/
theorem checkClientConfig_first_missing (c : Configuration) :
    (c.checkClientConfig.1 = none ↔
      (c.ClientId ≠ "" ∧ c.ClientSecret ≠ "" ∧ c.AuthCode ≠ "")) ∧
    (c.ClientId = "" → c.checkClientConfig.1 = some (.new "ClientId not configured")) ∧
    (c.ClientId ≠ "" → c.ClientSecret = "" →
      c.checkClientConfig.1 = some (.new "ClientSecret not configured")) ∧
    (c.ClientId ≠ "" → c.ClientSecret ≠ "" → c.AuthCode = "" →
      c.checkClientConfig.1 = some (.new "AuthCode not configured")) ∧
    (c.checkClientConfig.1 = some (.new "AuthCode not configured") →
      c.checkClientConfig.2 = c.PrintAuthUrl) ∧
    (c.checkClientConfig.1 ≠ some (.new "AuthCode not configured") →
      c.checkClientConfig.2 = []) ∧
    c.PrintAuthUrl ≠ [] := by
  unfold Configuration.checkClientConfig
  by_cases h1 : c.ClientId = "" <;> by_cases h2 : c.ClientSecret = "" <;>
    by_cases h3 : c.AuthCode = "" <;>
    simp [h1, h2, h3, Configuration.PrintAuthUrl]

/-- C7: when the user lookup succeeds, `findConfigFile` returns the first
candidate that exists among `<cwd>/sparkcli.toml`,
`/etc/sparkcli/sparkcli.toml`, `<home>/sparkcli.toml`, in that order, and
the relative path `sparkcli.toml` when none exists; with the cwd file absent
and the `/etc` file present the result is `/etc/sparkcli/sparkcli.toml`. -/
theorem findConfigFile_first_existing (home wd : String) (stat : String → Bool) :
    findConfigFile (.ok home) wd stat
      = .ok (((configCandidates wd home).find? stat).getD "sparkcli.toml") ∧
    (stat (wd ++ "/sparkcli.toml") = false → stat "/etc/sparkcli/sparkcli.toml" = true →
      findConfigFile (.ok home) wd stat = .ok "/etc/sparkcli/sparkcli.toml") := by
  have e1 : wd ++ String.singleton os.PathSeparator ++ "sparkcli.toml" = wd ++ "/sparkcli.toml" := by
    rw [String.append_assoc]; rfl
  have e2 : "/etc/sparkcli" ++ String.singleton os.PathSeparator ++ "sparkcli.toml"
      = "/etc/sparkcli/sparkcli.toml" := by decide
  have e3 : home ++ String.singleton os.PathSeparator ++ "sparkcli.toml"
      = home ++ "/sparkcli.toml" := by
    rw [String.append_assoc]; rfl
  have main : findConfigFile (.ok home) wd stat
      = .ok (((configCandidates wd home).find? stat).getD "sparkcli.toml") := by
    simp only [findConfigFile, findConfigFile.probe, e1, e2, e3, configCandidates, List.find?]
    cases stat (wd ++ "/sparkcli.toml") <;> cases stat "/etc/sparkcli/sparkcli.toml" <;>
      cases stat (home ++ "/sparkcli.toml") <;> simp
  refine ⟨main, ?_⟩
  intro h1 h2
  rw [main]
  simp [configCandidates, List.find?, h1, h2]

/-- C8, as stated, fails: for the configuration with client id `c`, redirect
`r` and scope `s`, the message logged is not the URL with the parameters in
the order `response_type`, `client_id`, `redirect_uri`, `scope`; the query
starts with `client_id`. -/
theorem printAuthUrl_order_counterexample :
    demoConfig.PrintAuthUrl ≠
      ["Visit \n" ++ demoConfig.BaseUrl ++ "/authorize?" ++
        formEncode [("response_type", "code"), ("client_id", demoConfig.ClientId),
          ("redirect_uri", demoConfig.RedirectUri), ("scope", demoConfig.Scope)]] ∧
    demoConfig.PrintAuthUrl =
      ["Visit \nhttps://api.ciscospark.com/v1/authorize?" ++
        "client_id=c&redirect_uri=r&response_type=code&scope=s"] := by
  constructor <;> decide

/-- C8, amended: the message logged by `PrintAuthUrl` is `Visit`, a line
break, then `BaseUrl`, `/authorize?` and the form-encoded query whose
parameters are, in ascending order of their names, `client_id`,
`redirect_uri`, `response_type=code` and `scope`, and no other parameter. -/
theorem printAuthUrl_sorted (c : Configuration) :
    c.PrintAuthUrl =
      ["Visit \n" ++ c.BaseUrl ++ "/authorize?" ++
        formEncode [("client_id", c.ClientId), ("redirect_uri", c.RedirectUri),
          ("response_type", "code"), ("scope", c.Scope)]] := by
  simp [Configuration.PrintAuthUrl, url.Values.Encode, sortByKey_consent, formEncode]

/-! ## Properties of the command line -/

/-- C10, as stated, fails: `messages create text email: hello`, whose
address is empty, posts the body with the single field `text`; it has no
field `toPersonEmail`. -/
theorem create_text_empty_address_counterexample :
    (messagesCreateText demoClient.Config demoClient true ["email:" ++ "", "hello"]
        freshWorld).2.trace
      = [.constructed (postMessageRequest demoClient.Config (emailTextMessage "" "hello")),
         .executed (postMessageRequest demoClient.Config (emailTextMessage "" "hello")),
         .printedJson Message.zero] ∧
    (emailTextMessage "" "hello").jsonFields = [("text", "hello")] ∧
    (emailTextMessage "" "hello").marshal = "\x7b\"text\":\"hello\"\x7d" ∧
    (emailTextMessage "" "hello").jsonFields ≠ [("text", "hello"), ("toPersonEmail", "")] := by
  refine ⟨by decide, by decide, by decide, by decide⟩

/-- C10, amended: `messages create text email:<a> <ws...>` makes one
request, `POST /messages`, whose body is the message with text the words
joined by single spaces and recipient `a`.  Its JSON object has the field
`text` when the joined text is non-empty, the field `toPersonEmail` when `a`
is non-empty, and no other field, so for a non-empty address and a non-empty
text it is exactly those two fields; for `bob@example.com` and the words
`hello`, `world` the JSON text is
`{"text":"hello world","toPersonEmail":"bob@example.com"}`. -/
theorem create_text_email_body (config : Configuration) (client : Client) (jsonFlag : Bool)
    (a : String) (ws : List String) (w : World) :
    (∃ last,
      (messagesCreateText config client jsonFlag (("email:" ++ a) :: ws) w).2.trace
        = w.trace ++ postMessageEvents client (emailTextMessage a (strings.Join ws " "))
            ++ [last] ∧
      ∀ req, last ≠ .constructed req ∧ last ≠ .executed req) ∧
    (emailTextMessage a (strings.Join ws " ")).jsonFields =
      (if strings.Join ws " " = "" then [] else [("text", strings.Join ws " ")]) ++
      (if a = "" then [] else [("toPersonEmail", a)]) ∧
    (emailTextMessage "bob@example.com" (strings.Join ["hello", "world"] " ")).marshal
      = "\x7b\"text\":\"hello world\",\"toPersonEmail\":\"bob@example.com\"\x7d" := by
  refine ⟨?_, ?_, by decide⟩
  · have hne : "email:" ++ a ≠ "-" := by
      have := colon_ne_sentinel "email" a
      simpa [String.append_assoc] using this
    have htail : Args.Tail (("email:" ++ a) :: ws) = ws := by
      cases ws <;> simp [Args.Tail]
    have htr := create_email_trace { Client := client } a (strings.Join ws " ") w
    simp only [messagesCreateText, Args.Get, htail, List.length_cons, List.getD_cons_zero]
    rw [if_neg (by omega), if_neg hne]
    cases hres : MessageService.Create { Client := client } ("email:" ++ a)
        (strings.Join ws " ") w with
    | mk res w1 =>
      rw [hres] at htr
      simp only [] at htr
      cases res with
      | error err => exact ⟨.loggedError err, by simp [htr], by simp⟩
      | ok msg =>
        cases jsonFlag with
        | true => exact ⟨.printedJson msg, by simp [htr], by simp⟩
        | false => exact ⟨.stdout msg.Id, by simp [htr], by simp⟩
  · by_cases h1 : strings.Join ws " " = "" <;> by_cases h2 : a = "" <;>
      simp [Message.jsonFields, emailTextMessage, h1, h2, List.filter]

/-- C11: with a non-empty `DefaultRoomId` and an access token, `messages
list` without argument makes exactly one request: it constructs and executes
the `GET` of the path `/messages?roomId=` followed by the default room, at
the URL `BaseUrl` followed by that path, and every later event is output,
not a request. -/
theorem messages_list_default_room (config : Configuration) (client : Client)
    (jsonFlag : Bool) (w : World)
    (hd : config.DefaultRoomId ≠ "") (ht : client.Config.AccessToken ≠ "") :
    (∃ out,
      (messagesList config client jsonFlag [] w).2.trace
        = w.trace ++
          [.constructed (getRequest client.Config ("/messages?roomId=" ++ config.DefaultRoomId)),
           .executed (getRequest client.Config ("/messages?roomId=" ++ config.DefaultRoomId))]
          ++ out ∧
      ∀ e ∈ out, e.isRequest = false) ∧
    (getRequest client.Config ("/messages?roomId=" ++ config.DefaultRoomId)).method = "GET" ∧
    (getRequest client.Config ("/messages?roomId=" ++ config.DefaultRoomId)).path
      = "/messages?roomId=" ++ config.DefaultRoomId ∧
    (getRequest client.Config ("/messages?roomId=" ++ config.DefaultRoomId)).url
      = client.Config.BaseUrl ++ ("/messages?roomId=" ++ config.DefaultRoomId) := by
  refine ⟨?_, rfl, rfl, rfl⟩
  have htr := list_trace { Client := client } config.DefaultRoomId w
  simp only [getEvents, ht, if_false] at htr
  simp only [messagesList, Args.Get, List.length_nil, List.getD_nil]
  rw [if_neg (by omega), if_pos trivial, if_neg hd]
  cases hres : MessageService.List { Client := client } config.DefaultRoomId w with
  | mk res w1 =>
    rw [hres] at htr
    simp only [] at htr
    cases res with
    | error err => exact ⟨[.loggedError err], by simp [htr], by simp [Event.isRequest]⟩
    | ok msgs =>
      cases jsonFlag with
      | true => exact ⟨[.printedJsonList msgs], by simp [htr], by simp [Event.isRequest]⟩
      | false =>
        refine ⟨msgs.map fun msg => Event.stdout
          ("[" ++ msg.Created ++ "] " ++ msg.PersonEmail ++ ": " ++ msg.Text ++ "\n"),
          by simp [htr], ?_⟩
        intro e he
        obtain ⟨msg, _, rfl⟩ := List.mem_map.mp he
        rfl

/-- Witness of C11: default room `RID`, access token `A`. -/
theorem messages_list_default_room_witness :
    (roomConfig.DefaultRoomId ≠ "" ∧ demoClient.Config.AccessToken ≠ "") ∧
    ((∃ out,
      (messagesList roomConfig demoClient true [] freshWorld).2.trace
        = freshWorld.trace ++
          [.constructed (getRequest demoClient.Config ("/messages?roomId=" ++ roomConfig.DefaultRoomId)),
           .executed (getRequest demoClient.Config ("/messages?roomId=" ++ roomConfig.DefaultRoomId))]
          ++ out ∧
      ∀ e ∈ out, e.isRequest = false) ∧
    (getRequest demoClient.Config ("/messages?roomId=" ++ roomConfig.DefaultRoomId)).method = "GET" ∧
    (getRequest demoClient.Config ("/messages?roomId=" ++ roomConfig.DefaultRoomId)).path
      = "/messages?roomId=" ++ roomConfig.DefaultRoomId ∧
    (getRequest demoClient.Config ("/messages?roomId=" ++ roomConfig.DefaultRoomId)).url
      = demoClient.Config.BaseUrl ++ ("/messages?roomId=" ++ roomConfig.DefaultRoomId)) ∧
    (getRequest demoClient.Config ("/messages?roomId=" ++ roomConfig.DefaultRoomId)).url
      = "https://api.ciscospark.com/v1/messages?roomId=RID" :=
  ⟨⟨by decide, by decide⟩,
   messages_list_default_room roomConfig demoClient true freshWorld (by decide) (by decide),
   by decide⟩

/-- C13: with a non-empty `DefaultRoomId` `d` in the configuration
singleton, `Create("-", t)` has the same outcome as `Create(d, t)`: the same
returned result and the same process state, so the same request with the
same path and body is constructed and executed; and `CreateFile("-", f)` has
the same outcome as `CreateFile(d, f)`. -/
theorem create_sentinel_is_default_room (m : MessageService) (t f : String) (w : World)
    (d : String) (hd : (GetConfiguration w.inst).1.DefaultRoomId = d) (hne : d ≠ "") :
    m.Create "-" t w = m.Create d t w ∧ m.CreateFile "-" f w = m.CreateFile d f w := by
  obtain ⟨h1, h2⟩ := default_room_resolved w d hd hne
  have hc : m.Create "-" t w = MessageService.Create.send m d t w := by
    simp only [MessageService.Create, if_true, h1, h2, ne_eq, hne, not_false_eq_true]
  have hf : m.CreateFile "-" f w = MessageService.CreateFile.send m d f w := by
    simp only [MessageService.CreateFile, if_true, h1, h2, ne_eq, hne, not_false_eq_true]
  by_cases hs : d = "-"
  · subst hs
    exact ⟨rfl, rfl⟩
  · constructor
    · rw [hc]
      simp only [MessageService.Create, hs, if_false]
    · rw [hf]
      simp only [MessageService.CreateFile, hs, if_false]

/-- Witness of C13: the default room `RID`. -/
theorem create_sentinel_is_default_room_witness :
    ((GetConfiguration roomWorld.inst).1.DefaultRoomId = "RID" ∧ "RID" ≠ "") ∧
    (demoService.Create "-" "hello" roomWorld = demoService.Create "RID" "hello" roomWorld ∧
      demoService.CreateFile "-" "/tmp/a.png" roomWorld
        = demoService.CreateFile "RID" "/tmp/a.png" roomWorld) ∧
    (demoService.Create "-" "hello" roomWorld).2.trace
      = postMessageEvents demoClient
          { Id := "", RoomId := "RID", Text := "hello", Files := "", ToPersonId := "",
            ToPersonEmail := "", PersonId := "", PersonEmail := "", Created := "" } :=
  ⟨⟨rfl, by decide⟩,
   create_sentinel_is_default_room demoService "hello" "/tmp/a.png" roomWorld "RID" rfl
     (by decide),
   by decide⟩

end SparkCli
